import Mathlib

/-!
Verification of the SPCS-Visualization geodetic core against its
natural-language specification.

The JavaScript sources are shallowly embedded:

* machine floating-point arithmetic is idealised over the rationals
  (exact arithmetic), except for the sphere identity which is stated
  over the reals with genuine trigonometric functions;
* angles inside the camera-orbit interpolator are stored as rational
  multiples of pi (so the value 1 denotes pi radians, and the source
  comparison with Math.PI becomes a comparison with 1);
* rotation steps of the projection aligner record the degree
  coefficient of each call (the source passes degrees times pi over 180
  to the scene graph);
* the JavaScript regular expressions used by the source are embedded as
  explicit leftmost-match scanners over character lists; for the
  patterns at hand greedy matching is deterministic because the
  character classes of adjacent atoms are disjoint, and the single
  optional group is implemented with its one-step fallback.
-/

/-! ## JavaScript string primitives -/

/-- Whitespace test for the regex class backslash-s restricted to the
characters that occur in the data set. -/
def isSpaceChar (c : Char) : Bool :=
  c = ' ' || c = '\t' || c = '\n' || c = '\r'

/-- Greedy nonempty digit run, the regex atom of one or more digits:
returns the captured digits and the rest of the input. -/
def digits1 (l : List Char) : Option (List Char × List Char) :=
  let ds := l.takeWhile Char.isDigit
  if ds.isEmpty then none else some (ds, l.dropWhile Char.isDigit)

/-- Greedy nonempty whitespace run, the regex atom of one or more
whitespace characters: returns the rest of the input. -/
def spaces1 (l : List Char) : Option (List Char) :=
  let ss := l.takeWhile isSpaceChar
  if ss.isEmpty then none else some (l.dropWhile isSpaceChar)

/-- Numeric value of a digit character. -/
def digitVal (c : Char) : ℕ := c.toNat - '0'.toNat

/-- Value of a digit string, as computed by the JavaScript parseInt on a
pure digit string. -/
def jsParseIntDigits (ds : List Char) : ℕ :=
  ds.foldl (fun n c => 10 * n + digitVal c) 0

/-- JavaScript parseInt on an arbitrary string (radix 10): skip leading
whitespace, optional sign, then a digit run; NaN (none) when no digit is
found.  Trailing characters are ignored. -/
def jsParseInt (s : String) : Option ℤ :=
  let l := s.data.dropWhile isSpaceChar
  let (sign, l1) : ℤ × List Char :=
    match l with
    | '-' :: r => (-1, r)
    | '+' :: r => (1, r)
    | r => (1, r)
  match digits1 l1 with
  | some (ds, _) => some (sign * jsParseIntDigits ds)
  | none => none

/-- Character of a single decimal digit. -/
def digitChar (n : ℕ) : Char := Char.ofNat (48 + n % 10)

/-- Decimal digit characters of a natural number, fuel-driven so that the
definition reduces inside the kernel. -/
def natStrAux : ℕ → ℕ → List Char
  | 0, _ => []
  | fuel + 1, n =>
      if n < 10 then [digitChar n]
      else natStrAux fuel (n / 10) ++ [digitChar (n % 10)]

/-- Decimal string of a natural number, as produced by the JavaScript
number-to-string conversion on a nonnegative integer. -/
def natStr (n : ℕ) : String := String.mk (natStrAux (n + 1) n)

/-! ## Aligner DMS matcher (part of createTransverseMercatorCylinder)

The source parses zone angle strings with the regular expression
consisting of a digit-run capture, whitespace, a second digit-run
capture, whitespace and a hemisphere-letter capture (the letter class is
WE for the central meridian and NS for the latitude of origin).  There
is no seconds field in this expression. -/

/-- One attempt of the aligner regex at the current position: digits,
whitespace, digits, whitespace, then one hemisphere letter drawn from
hs.  The two digit captures go through parseInt as in the source. -/
def matchDMHAt (hs : List Char) (l : List Char) : Option (ℕ × ℕ × Char) :=
  match digits1 l with
  | none => none
  | some (ds, r1) =>
    match spaces1 r1 with
    | none => none
    | some r2 =>
      match digits1 r2 with
      | none => none
      | some (ms, r3) =>
        match spaces1 r3 with
        | none => none
        | some r4 =>
          match r4 with
          | [] => none
          | c :: _ =>
            if hs.contains c then some (jsParseIntDigits ds, jsParseIntDigits ms, c)
            else none

/-- Leftmost match of the aligner regex: try each start position from
the left, as the JavaScript match does. -/
def matchDMH (hs : List Char) : List Char → Option (ℕ × ℕ × Char)
  | [] => none
  | c :: rest =>
    match matchDMHAt hs (c :: rest) with
    | some r => some r
    | none => matchDMH hs rest

/-! ## Zone data model (processZoneData / spcsZoneParameters shapes) -/

/-- A JavaScript value restricted to the shapes the scale-factor branch
inspects: a number or a string. -/
inductive JSVal where
  | num (q : ℚ)
  | str (s : String)
deriving DecidableEq, Repr

/-- Detailed zone parameters as stored in the parameter database and
read by the aligner.  Absent object properties are none.  The database
records carry scaleFactorDenominator; the aligner reads the distinct
property scaleFactor, so both are modelled. -/
structure TMParams where
  centralMeridian : Option String := none
  latitudeOfOrigin : Option String := none
  scaleFactor : Option JSVal := none
  scaleFactorDenominator : Option JSVal := none
deriving DecidableEq, Repr

/-- The spcsParams member of a processed zone: projection type tag plus
the detailed parameter object. -/
structure SpcsParams where
  projectionType : Option String := none
  params : Option TMParams := none
deriving DecidableEq, Repr

/-- A processed zone as consumed by the visualization layer. -/
structure Zone where
  name : String := ""
  projection : Option String := none
  spcsParams : Option SpcsParams := none
deriving DecidableEq, Repr

/-- Rotation axis of a scene-graph rotation call. -/
inductive Axis where
  | x
  | y
  | z
deriving DecidableEq, Repr

/-- One rotation step: the source calls rotate on the cylinder group
with the radian angle degrees times pi over 180; the step records the
degree coefficient. -/
structure RotStep where
  axis : Axis
  degrees : ℚ
deriving DecidableEq, Repr

/-- The transform state accumulated on the cylinder group: the ordered
rotation calls and the final scale triple. -/
structure TMCylinder where
  rotations : List RotStep
  scale : ℚ × ℚ × ℚ
deriving DecidableEq, Repr

/-- Scale-factor denominator extraction of the aligner: a number is used
directly; a string containing a slash is split and its second component
parsed; any other string is parsed as an integer.  none models the
JavaScript undefined-or-NaN outcomes. -/
def scaleFactorNumber (v : JSVal) : Option ℚ :=
  match v with
  | .num q => some q
  | .str s =>
    if s.data.contains '/' then
      match s.data.splitOn '/' with
      | [_, p2] => (jsParseInt (String.mk p2)).map (fun n => (n : ℚ))
      | _ => none
    else
      (jsParseInt s).map (fun n => (n : ℚ))

/-- Embedding of createTransverseMercatorCylinder from the Transverse
Mercator visualization module: base alignment (rotate by 90 degrees
about X then 90 degrees about Z), central-meridian rotation about Z,
latitude-of-origin rotation about Y, then the scale-factor branch that
reads the scaleFactor property.  Only the transform state is modelled;
geometry, materials and logging are rendering plumbing. -/
def createTransverseMercatorCylinder (zone : Zone) : TMCylinder :=
  let base : List RotStep := [⟨Axis.x, 90⟩, ⟨Axis.z, 90⟩]
  match zone.spcsParams with
  | none => { rotations := base, scale := (1, 1, 1) }
  | some sp =>
    match sp.params with
    | none => { rotations := base, scale := (1, 1, 1) }
    | some params =>
      let cmSteps : List RotStep :=
        match params.centralMeridian with
        | none => []
        | some cm =>
          match matchDMH ['W', 'E'] cm.data with
          | none => []
          | some (d, m, dir) =>
            let angle : ℚ := (if dir = 'W' then -1 else 1) * ((d : ℚ) + (m : ℚ) / 60)
            [⟨Axis.z, -angle⟩]
      let latSteps : List RotStep :=
        match params.latitudeOfOrigin with
        | none => []
        | some lat =>
          match matchDMH ['N', 'S'] lat.data with
          | none => []
          | some (d, m, dir) =>
            let angle : ℚ := (if dir = 'S' then -1 else 1) * ((d : ℚ) + (m : ℚ) / 60)
            [⟨Axis.y, angle⟩]
      let scale : ℚ × ℚ × ℚ :=
        match params.scaleFactor with
        | none => (1, 1, 1)
        | some v =>
          if v = .num 0 ∨ v = .str "" then (1, 1, 1)
          else
            match scaleFactorNumber v with
            | none => (1, 1, 1)
            | some n =>
              if n = 0 then (1, 1, 1)
              else
                let actualScaleFactor : ℚ := 1 - 1 / n
                (actualScaleFactor, 1, actualScaleFactor)
      { rotations := base ++ cmSteps ++ latSteps, scale := scale }

/-- Scale factor reported by logProjectionDetails in the projections
module: one minus the reciprocal of the scaleFactorDenominator property
when that property is present and truthy. -/
def loggedScaleFactor (params : TMParams) : Option ℚ :=
  match params.scaleFactorDenominator with
  | some (.num d) => if d = 0 then none else some (1 - 1 / d)
  | _ => none

/-! ## formatDDMMSS (math/spcs.js)

The formatter regex consists of a digit-run capture, whitespace, a
second digit-run capture, an optional group of whitespace plus a third
digit-run capture, optional whitespace, and one hemisphere letter from
NSEW, case-insensitive.  The only backtracking the pattern can perform
is dropping the optional seconds group, which the embedding implements
as an explicit fallback. -/

/-- Hemisphere letter class NSEW with the case-insensitive flag. -/
def hemAt (l : List Char) : Option Char :=
  match l with
  | [] => none
  | c :: _ =>
    if (['N', 'S', 'E', 'W', 'n', 's', 'e', 'w'] : List Char).contains c then some c
    else none

/-- One attempt of the formatter regex at the current position.  The
captures are returned as the matched character runs, exactly as the
JavaScript match object exposes them. -/
def matchDMSAt (l : List Char) :
    Option (List Char × List Char × Option (List Char) × Char) :=
  match digits1 l with
  | none => none
  | some (ds, r1) =>
    match spaces1 r1 with
    | none => none
    | some r2 =>
      match digits1 r2 with
      | none => none
      | some (ms, r3) =>
        match (match spaces1 r3 with
               | none => none
               | some r4 =>
                 match digits1 r4 with
                 | none => none
                 | some (ss, r5) =>
                   match hemAt (r5.dropWhile isSpaceChar) with
                   | none => none
                   | some c => some (ss, c)) with
        | some (ss, c) => some (ds, ms, some ss, c)
        | none =>
          match hemAt (r3.dropWhile isSpaceChar) with
          | none => none
          | some c => some (ds, ms, none, c)

/-- Leftmost match of the formatter regex. -/
def matchDMS : List Char → Option (List Char × List Char × Option (List Char) × Char)
  | [] => none
  | c :: rest =>
    match matchDMSAt (c :: rest) with
    | some r => some r
    | none => matchDMS rest

/-- Exponent factor of the JavaScript parseFloat: a letter e or E
followed by an optional sign and at least one digit; a malformed
exponent is ignored, since parseFloat takes the longest valid numeric
prefix. -/
def jsParseFloatExp (l : List Char) : ℤ :=
  let (sign, l1) : ℤ × List Char :=
    match l with
    | '-' :: r => (-1, r)
    | '+' :: r => (1, r)
    | r => (1, r)
  let ds := l1.takeWhile Char.isDigit
  if ds.isEmpty then 0 else sign * (jsParseIntDigits ds : ℤ)

/-- Lexical phase of the JavaScript parseFloat: leading whitespace is
skipped, then an optional sign, an integer digit run, an optional
decimal point with a fraction digit run, and an optional exponent.
none models NaN, produced when no digit is found; otherwise the sign,
the two digit runs and the exponent are returned.  The special value
Infinity is outside the modelled fragment (no value of the data set
reaches it). -/
def jsParseFloatParts (s : String) : Option (Bool × List Char × List Char × ℤ) :=
  let l := s.data.dropWhile isSpaceChar
  let signAndRest : Bool × List Char :=
    match l with
    | '-' :: r => (true, r)
    | '+' :: r => (false, r)
    | r => (false, r)
  let neg := signAndRest.1
  let l1 := signAndRest.2
  let ip := l1.takeWhile Char.isDigit
  let l2 := l1.dropWhile Char.isDigit
  let fracAndRest : List Char × List Char :=
    match l2 with
    | '.' :: r => (r.takeWhile Char.isDigit, r.dropWhile Char.isDigit)
    | r => ([], r)
  let fp := fracAndRest.1
  let l3 := fracAndRest.2
  if ip.isEmpty && fp.isEmpty then none
  else
    let e : ℤ :=
      match l3 with
      | 'e' :: r => jsParseFloatExp r
      | 'E' :: r => jsParseFloatExp r
      | _ => 0
    some (neg, ip, fp, e)

/-- JavaScript parseFloat idealised over the rationals, assembled from
the lexical phase. -/
def jsParseFloat (s : String) : Option ℚ :=
  (jsParseFloatParts s).map (fun parts =>
    let neg := parts.1
    let ip := parts.2.1
    let fp := parts.2.2.1
    let e := parts.2.2.2
    (if neg then -1 else 1) *
      ((jsParseIntDigits ip : ℚ) + (jsParseIntDigits fp : ℚ) / (10 : ℚ) ^ fp.length) *
      (10 : ℚ) ^ e)

/-- JavaScript toFixed with four fraction digits, on the idealised
parseFloat result: NaN renders as the string NaN; otherwise the sign is
peeled off, the magnitude is rounded to the nearest 1/10000 with ties
away from zero, and the fraction is printed with exactly four digits. -/
def jsToFixed4 : Option ℚ → String
  | none => "NaN"
  | some q =>
    let sign := if q < 0 then "-" else ""
    let n : ℕ := (⌊|q| * 10000 + 1 / 2⌋).toNat
    let ipart := n / 10000
    let f := n % 10000
    sign ++ natStr ipart ++ "." ++
      String.mk [digitChar (f / 1000), digitChar (f / 100 % 10),
                 digitChar (f / 10 % 10), digitChar (f % 10)]

/-- Checker for the output shape demanded by the specification for the
decimal pass-through branch: an optional minus sign, a nonempty digit
run, a decimal point, exactly four fraction digits, then the degree
sign. -/
def decimal4 (s : String) : Bool :=
  let l := if s.data.head? = some '-' then s.data.tail else s.data
  let ds := l.takeWhile Char.isDigit
  let r := l.dropWhile Char.isDigit
  !ds.isEmpty &&
    (match r with
     | '.' :: a :: b :: c :: d :: ['°'] => a.isDigit && b.isDigit && c.isDigit && d.isDigit
     | _ => false)

/-- Inputs of formatDDMMSS: the function receives arbitrary JavaScript
values and guards on both falsiness and the typeof check. -/
inductive JSInput where
  | jsNull
  | jsUndefined
  | jsNum (q : ℚ)
  | jsObject
  | jsStr (s : String)
deriving DecidableEq, Repr

/-- Embedding of formatDDMMSS: null, undefined, non-strings and the
empty string (falsy) yield the sentinel; a regex match renders degree,
minute and optional second symbols with the hemisphere letter
uppercased, the seconds field being present exactly when the capture
exists and differs from the two-character string 00; otherwise a string
containing a decimal point goes through parseFloat and toFixed, and any
other string is returned unchanged. -/
def formatDDMMSS (v : JSInput) : String :=
  match v with
  | .jsStr s =>
    if s = "" then "Not specified"
    else
      match matchDMS s.data with
      | some (ds, ms, ssOpt, dir) =>
        let seconds : List Char :=
          match ssOpt with
          | some ss => ss
          | none => ['0', '0']
        let base := String.mk ds ++ "° " ++ String.mk ms ++ "′"
        let withSec :=
          if seconds = ['0', '0'] then base
          else base ++ " " ++ String.mk seconds ++ "″"
        withSec ++ " " ++ String.mk [dir.toUpper]
      | none =>
        if s.data.contains '.' then jsToFixed4 (jsParseFloat s) ++ "°" else s
  | _ => "Not specified"

/-! ## getSPCSZoneParameters (zone parameter repository) -/

/-- The regional code argument: the callers pass a string, a number, or
nothing at all. -/
inductive FipsCode where
  | str (s : String)
  | num (n : ℕ)
  | undef
deriving DecidableEq, Repr

/-- JavaScript falsiness of the code argument: the empty string, the
number zero and undefined are falsy. -/
def fipsFalsy : FipsCode → Bool
  | .str s => s = ""
  | .num n => n = 0
  | .undef => true

/-- The toString call of the lookup; the undefined case sits behind the
falsy guard and is never reached. -/
def fipsToString : FipsCode → String
  | .str s => s
  | .num n => natStr n
  | .undef => "undefined"

/-- JavaScript padStart with target length four and pad character zero. -/
def padStart4 (s : String) : String :=
  String.mk (List.replicate (4 - s.length) '0' ++ s.data)

/-- One record of the zone parameter database. -/
structure SPCSZoneRec where
  name : String := ""
  fips : String := ""
  projectionType : String := ""
  params : TMParams := {}
deriving DecidableEq, Repr

/-- One datum namespace of the database: an object that may or may not
carry a zones table. -/
structure DatumRec where
  zones : Option (List (String × SPCSZoneRec)) := none
deriving DecidableEq, Repr

/-- The database shape: datum name to datum record.  Modelled from the
spec: the file spcsZoneParameters.json is not among the sources, so its
shape is taken from the specification (datum namespace, then 4-digit
zero-padded regional code, then a ZoneParameterRecord); the lookup
function itself is embedded from the source with the module-level
database passed explicitly. -/
abbrev SPCSDb := List (String × DatumRec)

/-- Embedding of getSPCSZoneParameters: falsy codes resolve to null;
otherwise the code is converted to a string, zero-padded to four
characters, and looked up under the datum namespace, with null for a
missing datum, a missing zones table, or a missing code. -/
def getSPCSZoneParameters (db : SPCSDb) (fipsCode : FipsCode)
    (datum : String := "NAD83") : Option SPCSZoneRec :=
  if fipsFalsy fipsCode then none
  else
    let formattedFips := padStart4 (fipsToString fipsCode)
    match List.lookup datum db with
    | none => none
    | some dr =>
      match dr.zones with
      | none => none
      | some zs =>
        match List.lookup formattedFips zs with
        | none => none
        | some r => some r

/-! ## visualizeProjection (projections module) -/

/-- The shared switch that maps a raw projection tag to its
human-readable name, returning the tag unchanged on the default
branch. -/
def mapProjectionName (pt : String) : String :=
  if pt = "TM" then "Transverse Mercator"
  else if pt = "LCC" then "Lambert Conformal Conic"
  else if pt = "OM" then "Oblique Mercator"
  else pt

/-- Fallback of getProjectionType onto the basic projection field from
the GeoJSON properties. -/
def projectionTypeFromBasic (zone : Zone) : String :=
  match zone.projection with
  | some p => if p = "" then "Unknown Projection" else mapProjectionName p
  | none => "Unknown Projection"

/-- Embedding of the projections-module getProjectionType: prefer the
detailed database tag when spcsParams and its projectionType are
truthy, otherwise fall back to the basic field, otherwise report an
unknown projection. -/
def getProjectionType (zone : Zone) : String :=
  match zone.spcsParams with
  | some sp =>
    match sp.projectionType with
    | some pt => if pt = "" then projectionTypeFromBasic zone else mapProjectionName pt
    | none => projectionTypeFromBasic zone
  | none => projectionTypeFromBasic zone

/-- Embedding of visualizeProjection: the switch dispatches the
Transverse Mercator case to the cylinder builder; the Lambert Conformal
Conic and Oblique Mercator cases are unimplemented stubs that fall
through, and the default branch warns on the console; every branch
other than Transverse Mercator returns null to the caller, modelled as
none. -/
def visualizeProjection (zone : Zone) : Option TMCylinder :=
  let projectionType := getProjectionType zone
  if projectionType = "Transverse Mercator" then
    some (createTransverseMercatorCylinder zone)
  else
    none

/-! ## Camera orbit interpolation (ellipsoid scene module)

Angles are stored as rational multiples of pi: the value 1 stands for
pi radians, so the source comparison of the longitude delta with
Math.PI becomes a comparison with 1, and a full turn is 2. -/

/-- First normalisation loop of the orbit functions: while the delta
exceeds pi, subtract a full turn. -/
def normalizePiLoop1 (x : ℚ) : ℚ :=
  if h : 1 < x then normalizePiLoop1 (x - 2) else x
termination_by (⌈(x - 1) / 2⌉).toNat
decreasing_by
  have h0 : 0 < ⌈(x - 1) / 2⌉ := Int.ceil_pos.mpr (by linarith)
  have h2 : ((x - 2 - 1) / 2 : ℚ) = (x - 1) / 2 - 1 := by ring
  rw [h2, Int.ceil_sub_one]
  omega

/-- Second normalisation loop: while the delta is below minus pi, add a
full turn. -/
def normalizePiLoop2 (x : ℚ) : ℚ :=
  if h : x < -1 then normalizePiLoop2 (x + 2) else x
termination_by (⌈(-1 - x) / 2⌉).toNat
decreasing_by
  have h0 : 0 < ⌈(-1 - x) / 2⌉ := Int.ceil_pos.mpr (by linarith)
  have h2 : ((-1 - (x + 2)) / 2 : ℚ) = (-1 - x) / 2 - 1 := by ring
  rw [h2, Int.ceil_sub_one]
  omega

/-- Shortest-path normalisation of the longitude delta, as performed by
orbitToLongitude and orbitToLatLong: shift by full turns until the
delta lies between minus pi and pi. -/
def normalizeDeltaPi (x : ℚ) : ℚ := normalizePiLoop2 (normalizePiLoop1 x)

/-- One interpolation run of orbitToLatLong: the current camera angles
(from the spherical conversion of the camera position), the requested
geographic target in degrees, and the time base. -/
structure OrbitRun where
  originalTheta : ℚ
  originalPhi : ℚ
  latitude : ℚ
  longitude : ℚ
  startTime : ℚ
  duration : ℚ
deriving DecidableEq, Repr

/-- Target phi: ninety degrees minus the latitude, in pi units. -/
def targetPhiRun (r : OrbitRun) : ℚ := (90 - r.latitude) / 180

/-- Target theta: the longitude, in pi units. -/
def targetThetaRun (r : OrbitRun) : ℚ := r.longitude / 180

/-- The normalised longitude delta of the run. -/
def deltaThetaRun (r : OrbitRun) : ℚ :=
  normalizeDeltaPi (targetThetaRun r - r.originalTheta)

/-- The phi delta of the run; latitude needs no wrap handling. -/
def deltaPhiRun (r : OrbitRun) : ℚ := targetPhiRun r - r.originalPhi

/-- The cubic ease-out easing of the animation. -/
def easeOutCubic (p : ℚ) : ℚ := 1 - (1 - p) ^ 3

/-- Theta emitted by the animation callback at a given clock reading:
past the end time the target is assigned exactly; before it the eased
delta is added to the original angle. -/
def thetaSample (r : OrbitRun) (now : ℚ) : ℚ :=
  if r.startTime + r.duration ≤ now then targetThetaRun r
  else r.originalTheta + deltaThetaRun r * easeOutCubic ((now - r.startTime) / r.duration)

/-- Phi emitted by the animation callback at a given clock reading. -/
def phiSample (r : OrbitRun) (now : ℚ) : ℚ :=
  if r.startTime + r.duration ≤ now then targetPhiRun r
  else r.originalPhi + deltaPhiRun r * easeOutCubic ((now - r.startTime) / r.duration)

/-! ## latLonToPoint (math/coordinates.js) -/

/-- A point of the 3D scene. -/
structure CartesianPoint where
  x : ℝ
  y : ℝ
  z : ℝ

/-- Embedding of latLonToPoint: geographic degrees are converted to
radians and placed on a sphere of the given radius, with the y axis
toward the north pole and the z axis toward the prime meridian. -/
noncomputable def latLonToPoint (lat lon radius : ℝ) : CartesianPoint :=
  let latRad := lat * Real.pi / 180
  let lonRad := lon * Real.pi / 180
  { x := radius * Real.cos latRad * Real.sin lonRad,
    y := radius * Real.sin latRad,
    z := radius * Real.cos latRad * Real.cos lonRad }

/-! ## Concrete fixtures used by the witnesses and counterexamples -/

/-- Parameter record of the spec scenario: central meridian 146 00 W,
latitude of origin 54 00 N, scale factor denominator 10000; stored
as the database stores it, under scaleFactorDenominator. -/
def alaskaParams : TMParams :=
  { centralMeridian := some "146 00 W",
    latitudeOfOrigin := some "54 00 N",
    scaleFactor := none,
    scaleFactorDenominator := some (.num 10000) }

/-- Zone fixture for the spec scenario. -/
def zoneAlaska : Zone :=
  { name := "Alaska 7", projection := some "TM",
    spcsParams := some { projectionType := some "TM", params := some alaskaParams } }

/-- Zone fixture whose central meridian carries a seconds field. -/
def zoneSeconds : Zone :=
  { name := "seconds zone", projection := some "TM",
    spcsParams := some
      { projectionType := some "TM",
        params := some { centralMeridian := some "122 19 45 W" } } }

/-- Orbit fixture crossing the 180 degree wrap: the camera sits at
theta of 170 degrees (17/18 in pi units) and the target longitude is
minus 170 degrees. -/
def wrapRun : OrbitRun :=
  { originalTheta := 17/18, originalPhi := 1/2, latitude := 0, longitude := -170,
    startTime := 0, duration := 1 }

/-- Orbit fixture of the spec scenario: equator, longitude 0 to 90
degrees east. -/
def eastRun : OrbitRun :=
  { originalTheta := 0, originalPhi := 1/2, latitude := 0, longitude := 90,
    startTime := 0, duration := 1 }

/-- Database fixture.  Modelled from the spec: spcsZoneParameters.json
is not among the sources, so this single-record NAD83 dataset follows
the documented shape and the Alabama East scenario of the spec. -/
def sampleDb : SPCSDb :=
  [("NAD83",
    { zones := some
        [("0101",
          { name := "Alabama East", fips := "0101", projectionType := "TM",
            params :=
              { centralMeridian := some "85 50 W",
                latitudeOfOrigin := some "30 30 N",
                scaleFactor := none,
                scaleFactorDenominator := some (.num 25000) } })] })]

/-! ## List scanning lemmas -/

theorem takeWhile_append_stop (p : Char → Bool) :
    ∀ (xs : List Char) (c : Char) (ys : List Char),
      (∀ a ∈ xs, p a = true) → p c = false →
      (xs ++ c :: ys).takeWhile p = xs ∧ (xs ++ c :: ys).dropWhile p = c :: ys := by
  intro xs
  induction xs with
  | nil =>
    intro c ys _ hc
    simp [List.takeWhile, List.dropWhile, hc]
  | cons x xs ih =>
    intro c ys hall hc
    have hx : p x = true := hall x (by simp)
    have hrest : ∀ a ∈ xs, p a = true := fun a ha => hall a (by simp [ha])
    have := ih c ys hrest hc
    simp [List.takeWhile, List.dropWhile, hx, this.1, this.2]

theorem digits1_append_stop (xs : List Char) (c : Char) (ys : List Char)
    (hne : xs ≠ []) (hall : ∀ a ∈ xs, a.isDigit = true) (hc : c.isDigit = false) :
    digits1 (xs ++ c :: ys) = some (xs, c :: ys) := by
  have h := takeWhile_append_stop Char.isDigit xs c ys hall hc
  simp [digits1, h.1, h.2, hne]

theorem digits1_not_digit (c : Char) (ys : List Char) (hc : c.isDigit = false) :
    digits1 (c :: ys) = none := by
  simp [digits1, List.takeWhile, hc]

theorem spaces1_single_space (c : Char) (ys : List Char) (hc : isSpaceChar c = false) :
    spaces1 (' ' :: c :: ys) = some (c :: ys) := by
  have h := takeWhile_append_stop isSpaceChar [' '] c ys (by intro a ha; simp at ha; simp [ha, isSpaceChar]) hc
  simp only [List.singleton_append] at h
  simp [spaces1, h.1, h.2]

theorem dropWhile_single_space (c : Char) (ys : List Char) (hc : isSpaceChar c = false) :
    (' ' :: c :: ys).dropWhile isSpaceChar = c :: ys := by
  have h := takeWhile_append_stop isSpaceChar [' '] c ys (by intro a ha; simp at ha; simp [ha, isSpaceChar]) hc
  simpa using h.2

theorem not_space_of_digit {c : Char} (h : c.isDigit = true) : isSpaceChar c = false := by
  simp only [isSpaceChar, Bool.or_eq_false_iff, decide_eq_false_iff_not]
  refine ⟨⟨⟨?_, ?_⟩, ?_⟩, ?_⟩ <;> rintro rfl <;> simp [Char.isDigit] at h

theorem not_contains_of_digit (l : List Char) (hl : ∀ a ∈ l, a.isDigit = false)
    (c : Char) (hc : c.isDigit = true) : l.contains c = false := by
  cases h : l.contains c with
  | false => rfl
  | true =>
    exfalso
    have hmem : c ∈ l := by
      obtain ⟨a, ha, hba⟩ := List.contains_iff_exists_mem_beq.mp h
      rcases eq_of_beq hba with rfl
      exact ha
    rw [hl c hmem] at hc
    exact Bool.false_ne_true hc

/-! ## Evaluation of the aligner matcher on shaped inputs -/

theorem matchDMHAt_success (hs : List Char) (ds ms : List Char) (h1 : Char)
    (hds : ds ≠ []) (hdall : ∀ a ∈ ds, a.isDigit = true)
    (hms : ms ≠ []) (hmall : ∀ a ∈ ms, a.isDigit = true)
    (hh : hs.contains h1 = true) (hh1s : isSpaceChar h1 = false) :
    matchDMHAt hs (ds ++ ' ' :: (ms ++ [' ', h1]))
      = some (jsParseIntDigits ds, jsParseIntDigits ms, h1) := by
  obtain ⟨m0, ms', rfl⟩ := List.exists_cons_of_ne_nil hms
  have hm0 : m0.isDigit = true := hmall m0 (by simp)
  have e1 : digits1 (ds ++ ' ' :: (m0 :: (ms' ++ [' ', h1])))
      = some (ds, ' ' :: (m0 :: (ms' ++ [' ', h1]))) :=
    digits1_append_stop ds ' ' _ hds hdall (by decide)
  have e2 : spaces1 (' ' :: m0 :: (ms' ++ [' ', h1])) = some (m0 :: (ms' ++ [' ', h1])) :=
    spaces1_single_space m0 _ (not_space_of_digit hm0)
  have e3 : digits1 (m0 :: (ms' ++ [' ', h1])) = some (m0 :: ms', [' ', h1]) := by
    have := digits1_append_stop (m0 :: ms') ' ' [h1] (by simp) hmall (by decide)
    simpa using this
  have e4 : spaces1 [' ', h1] = some [h1] := spaces1_single_space h1 [] hh1s
  simp only [matchDMHAt, List.cons_append, e1, e2, e3, e4, hh, if_true]

theorem matchDMH_success (hs : List Char) (ds ms : List Char) (h1 : Char)
    (hds : ds ≠ []) (hdall : ∀ a ∈ ds, a.isDigit = true)
    (hms : ms ≠ []) (hmall : ∀ a ∈ ms, a.isDigit = true)
    (hh : hs.contains h1 = true) (hh1s : isSpaceChar h1 = false) :
    matchDMH hs (ds ++ ' ' :: (ms ++ [' ', h1]))
      = some (jsParseIntDigits ds, jsParseIntDigits ms, h1) := by
  obtain ⟨d0, ds', rfl⟩ := List.exists_cons_of_ne_nil hds
  have hat := matchDMHAt_success hs (d0 :: ds') ms h1 (by simp) hdall hms hmall hh hh1s
  rw [show (d0 :: ds') ++ ' ' :: (ms ++ [' ', h1]) = d0 :: (ds' ++ ' ' :: (ms ++ [' ', h1])) by simp] at hat ⊢
  rw [matchDMH, hat]

theorem matchDMHAt_none_of_digits1_none (hs : List Char) (l : List Char)
    (h : digits1 l = none) : matchDMHAt hs l = none := by
  unfold matchDMHAt
  rw [h]

theorem matchDMHAt_skip (hs : List Char) (xs ms : List Char) (s0 : Char) (tail : List Char)
    (hxs : xs ≠ []) (hxall : ∀ a ∈ xs, a.isDigit = true)
    (hms : ms ≠ []) (hmall : ∀ a ∈ ms, a.isDigit = true)
    (hs0 : s0.isDigit = true) (hcont : hs.contains s0 = false) :
    matchDMHAt hs (xs ++ ' ' :: (ms ++ ' ' :: s0 :: tail)) = none := by
  obtain ⟨m0, ms', rfl⟩ := List.exists_cons_of_ne_nil hms
  have hm0 : m0.isDigit = true := hmall m0 (by simp)
  have e1 : digits1 (xs ++ ' ' :: (m0 :: (ms' ++ ' ' :: s0 :: tail)))
      = some (xs, ' ' :: (m0 :: (ms' ++ ' ' :: s0 :: tail))) :=
    digits1_append_stop xs ' ' _ hxs hxall (by decide)
  have e2 : spaces1 (' ' :: m0 :: (ms' ++ ' ' :: s0 :: tail))
      = some (m0 :: (ms' ++ ' ' :: s0 :: tail)) :=
    spaces1_single_space m0 _ (not_space_of_digit hm0)
  have e3 : digits1 (m0 :: (ms' ++ ' ' :: s0 :: tail)) = some (m0 :: ms', ' ' :: s0 :: tail) := by
    have := digits1_append_stop (m0 :: ms') ' ' (s0 :: tail) (by simp) hmall (by decide)
    simpa using this
  have e4 : spaces1 (' ' :: s0 :: tail) = some (s0 :: tail) :=
    spaces1_single_space s0 tail (not_space_of_digit hs0)
  simp only [matchDMHAt, List.cons_append, e1, e2, e3, e4, hcont]
  simp

theorem matchDMH_skip_digits (hs : List Char) (xs : List Char)
    (hxall : ∀ a ∈ xs, a.isDigit = true)
    (ms : List Char) (s0 : Char) (tail : List Char)
    (hms : ms ≠ []) (hmall : ∀ a ∈ ms, a.isDigit = true)
    (hs0 : s0.isDigit = true) (hcont : hs.contains s0 = false) :
    matchDMH hs (xs ++ ' ' :: (ms ++ ' ' :: s0 :: tail))
      = matchDMH hs (ms ++ ' ' :: s0 :: tail) := by
  induction xs with
  | nil =>
    rw [List.nil_append, matchDMH,
      matchDMHAt_none_of_digits1_none hs _ (digits1_not_digit ' ' _ (by decide))]
  | cons x xs ih =>
    have hxall' : ∀ a ∈ xs, a.isDigit = true := fun a ha => hxall a (by simp [ha])
    have hat := matchDMHAt_skip hs (x :: xs) ms s0 tail (by simp) hxall hms hmall hs0 hcont
    rw [show (x :: xs) ++ ' ' :: (ms ++ ' ' :: s0 :: tail)
        = x :: (xs ++ ' ' :: (ms ++ ' ' :: s0 :: tail)) by simp] at hat ⊢
    rw [matchDMH, hat, ih hxall']

example : matchDMH ['W', 'E'] "146 00 W".data = some (146, 0, 'W') := by decide

example : matchDMH ['N', 'S'] "54 00 N".data = some (54, 0, 'N') := by decide

example : matchDMH ['W', 'E'] "122 19 45 W".data = some (19, 45, 'W') := by decide

example :
    createTransverseMercatorCylinder
      { name := "test",
        spcsParams := some
          { projectionType := some "TM",
            params := some
              { centralMeridian := some "146 00 W",
                latitudeOfOrigin := some "54 00 N" } } } =
      { rotations := [⟨Axis.x, 90⟩, ⟨Axis.z, 90⟩, ⟨Axis.z, 146⟩, ⟨Axis.y, 54⟩],
        scale := (1, 1, 1) } := by
  have hcm : matchDMH ['W', 'E'] "146 00 W".data = some (146, 0, 'W') := by decide
  have hlat : matchDMH ['N', 'S'] "54 00 N".data = some (54, 0, 'N') := by decide
  simp only [createTransverseMercatorCylinder, hcm, hlat]
  norm_num [TMCylinder.mk.injEq, RotStep.mk.injEq]
  decide

/-! ## Claim C1: ordered rotations of the Transverse Mercator aligner -/

/-- Claim C1: for every TM zone record whose params contain a central
meridian string of the shape digits, space, digits, space, W or E, and
a latitude of origin of the shape digits, space, digits, space, N or S,
createTransverseMercatorCylinder first applies the base alignment
(rotate 90 degrees about X, then 90 degrees about Z), then rotates
about Z by the negation of the signed central-meridian degrees (West
negative), then about Y by the signed latitude-of-origin degrees (South
negative). -/
theorem createTM_alignment_order
    (nm : String) (proj pt : Option String) (sf sfd : Option JSVal)
    (ds ms ds2 ms2 : List Char) (h1 h2 : Char)
    (hds : ds ≠ []) (hdall : ∀ a ∈ ds, a.isDigit = true)
    (hms : ms ≠ []) (hmall : ∀ a ∈ ms, a.isDigit = true)
    (hds2 : ds2 ≠ []) (hdall2 : ∀ a ∈ ds2, a.isDigit = true)
    (hms2 : ms2 ≠ []) (hmall2 : ∀ a ∈ ms2, a.isDigit = true)
    (hh1 : h1 = 'W' ∨ h1 = 'E') (hh2 : h2 = 'N' ∨ h2 = 'S') :
    (createTransverseMercatorCylinder
      { name := nm, projection := proj,
        spcsParams := some
          { projectionType := pt,
            params := some
              { centralMeridian := some (String.mk (ds ++ ' ' :: (ms ++ [' ', h1]))),
                latitudeOfOrigin := some (String.mk (ds2 ++ ' ' :: (ms2 ++ [' ', h2]))),
                scaleFactor := sf,
                scaleFactorDenominator := sfd } } }).rotations
      = [⟨Axis.x, 90⟩, ⟨Axis.z, 90⟩,
         ⟨Axis.z, -((if h1 = 'W' then -1 else 1)
            * ((jsParseIntDigits ds : ℚ) + (jsParseIntDigits ms : ℚ) / 60))⟩,
         ⟨Axis.y, (if h2 = 'S' then -1 else 1)
            * ((jsParseIntDigits ds2 : ℚ) + (jsParseIntDigits ms2 : ℚ) / 60)⟩] := by
  have hc1 : (['W', 'E'] : List Char).contains h1 = true := by
    rcases hh1 with rfl | rfl <;> decide
  have hsp1 : isSpaceChar h1 = false := by
    rcases hh1 with rfl | rfl <;> decide
  have hc2 : (['N', 'S'] : List Char).contains h2 = true := by
    rcases hh2 with rfl | rfl <;> decide
  have hsp2 : isSpaceChar h2 = false := by
    rcases hh2 with rfl | rfl <;> decide
  have m1 := matchDMH_success ['W', 'E'] ds ms h1 hds hdall hms hmall hc1 hsp1
  have m2 := matchDMH_success ['N', 'S'] ds2 ms2 h2 hds2 hdall2 hms2 hmall2 hc2 hsp2
  simp only [createTransverseMercatorCylinder, m1, m2]
  simp

/-- Witness for C1 at the spec scenario: central meridian 146 00 W and
latitude of origin 54 00 N produce a rotation of plus 146 degrees about
Z and plus 54 degrees about Y after the base alignment. -/
theorem createTM_alignment_order_witness :
    String.mk (['1', '4', '6'] ++ ' ' :: (['0', '0'] ++ [' ', 'W'])) = "146 00 W"
  ∧ String.mk (['5', '4'] ++ ' ' :: (['0', '0'] ++ [' ', 'N'])) = "54 00 N"
  ∧ (createTransverseMercatorCylinder zoneAlaska).rotations
      = [⟨Axis.x, 90⟩, ⟨Axis.z, 90⟩, ⟨Axis.z, 146⟩, ⟨Axis.y, 54⟩] := by
  refine ⟨by decide, by decide, ?_⟩
  have h := createTM_alignment_order "Alaska 7" (some "TM") (some "TM")
      none (some (.num 10000))
      ['1', '4', '6'] ['0', '0'] ['5', '4'] ['0', '0'] 'W' 'N'
      (by decide) (by decide) (by decide) (by decide)
      (by decide) (by decide) (by decide) (by decide)
      (Or.inl rfl) (Or.inl rfl)
  rw [show String.mk (['1', '4', '6'] ++ ' ' :: (['0', '0'] ++ [' ', 'W'])) = "146 00 W"
      from by decide] at h
  rw [show String.mk (['5', '4'] ++ ' ' :: (['0', '0'] ++ [' ', 'N'])) = "54 00 N"
      from by decide] at h
  rw [show zoneAlaska =
      { name := "Alaska 7", projection := some "TM",
        spcsParams := some
          { projectionType := some "TM",
            params := some
              { centralMeridian := some "146 00 W",
                latitudeOfOrigin := some "54 00 N",
                scaleFactor := none,
                scaleFactorDenominator := some (.num 10000) } } } from rfl]
  rw [h]
  have e1 : jsParseIntDigits ['1', '4', '6'] = 146 := by decide
  have e2 : jsParseIntDigits ['0', '0'] = 0 := by decide
  have e3 : jsParseIntDigits ['5', '4'] = 54 := by decide
  rw [e1, e2, e3, if_pos (show 'W' = 'W' from rfl), if_neg (show 'N' ≠ 'S' by decide)]
  norm_num [RotStep.mk.injEq]

/-! ## Claim C2: the scale factor is read from the wrong property -/

/-- Claim C2 (code bug): the database records carry the denominator
under scaleFactorDenominator, and logProjectionDetails reports the
scale factor 1 - 1/10000 from it, but createTransverseMercatorCylinder
reads the absent scaleFactor property, so the cylinder scale stays
(1, 1, 1) instead of the claimed (0.9999, 1, 0.9999). -/
theorem scaleFactor_never_applied :
    (createTransverseMercatorCylinder zoneAlaska).scale = (1, 1, 1)
  ∧ loggedScaleFactor alaskaParams = some (9999/10000)
  ∧ ((9999/10000 : ℚ), (1 : ℚ), (9999/10000 : ℚ)) ≠ ((1 : ℚ), (1 : ℚ), (1 : ℚ)) := by
  refine ⟨?_, ?_, by norm_num [Prod.ext_iff]⟩
  · simp [createTransverseMercatorCylinder, zoneAlaska, alaskaParams]
  · simp only [loggedScaleFactor, alaskaParams]
    norm_num

/-! ## Claim C3: the aligner regex has no seconds field -/

/-- Claim C3 (amended): the central-meridian regex of the aligner
recognises only the digits, space, digits, space, hemisphere shape; on
a string that carries a seconds field the leftmost match binds the
minutes run as degrees and the seconds run as minutes, so the signed
angle is computed from the last two numeric fields and the Z rotation
negates that value. -/
theorem createTM_cm_seconds (nm : String) (proj pt : Option String) (sf sfd : Option JSVal)
    (ds ms ss : List Char) (h1 : Char)
    (_hds : ds ≠ []) (hdall : ∀ a ∈ ds, a.isDigit = true)
    (hms : ms ≠ []) (hmall : ∀ a ∈ ms, a.isDigit = true)
    (hss : ss ≠ []) (hsall : ∀ a ∈ ss, a.isDigit = true)
    (hh1 : h1 = 'W' ∨ h1 = 'E') :
    (createTransverseMercatorCylinder
      { name := nm, projection := proj,
        spcsParams := some
          { projectionType := pt,
            params := some
              { centralMeridian := some (String.mk (ds ++ ' ' :: (ms ++ ' ' :: (ss ++ [' ', h1])))),
                latitudeOfOrigin := none,
                scaleFactor := sf,
                scaleFactorDenominator := sfd } } }).rotations
      = [⟨Axis.x, 90⟩, ⟨Axis.z, 90⟩,
         ⟨Axis.z, -((if h1 = 'W' then -1 else 1)
            * ((jsParseIntDigits ms : ℚ) + (jsParseIntDigits ss : ℚ) / 60))⟩] := by
  obtain ⟨s0, ss', rfl⟩ := List.exists_cons_of_ne_nil hss
  have hs0 : s0.isDigit = true := hsall s0 (by simp)
  have hc1 : (['W', 'E'] : List Char).contains h1 = true := by
    rcases hh1 with rfl | rfl <;> decide
  have hsp1 : isSpaceChar h1 = false := by
    rcases hh1 with rfl | rfl <;> decide
  have hcont : (['W', 'E'] : List Char).contains s0 = false :=
    not_contains_of_digit _ (by intro a ha; fin_cases ha <;> decide) s0 hs0
  have hskip := matchDMH_skip_digits ['W', 'E'] ds hdall ms s0 (ss' ++ [' ', h1])
      hms hmall hs0 hcont
  have hsucc := matchDMH_success ['W', 'E'] ms (s0 :: ss') h1 hms hmall (by simp) hsall hc1 hsp1
  have hmatch : matchDMH ['W', 'E'] (ds ++ ' ' :: (ms ++ ' ' :: ((s0 :: ss') ++ [' ', h1])))
      = some (jsParseIntDigits ms, jsParseIntDigits (s0 :: ss'), h1) := by
    rw [show ms ++ ' ' :: ((s0 :: ss') ++ [' ', h1]) = ms ++ ' ' :: s0 :: (ss' ++ [' ', h1])
        by simp] at hsucc ⊢
    rw [hskip, hsucc]
  simp only [createTransverseMercatorCylinder, hmatch]
  simp

/-- Witness for the amended C3 at the string 122 19 45 W: the embedded
aligner parses degrees 19 and minutes 45 from it, yielding a Z rotation
of plus 19.75 degrees. -/
theorem createTM_cm_seconds_witness :
    String.mk (['1', '2', '2'] ++ ' ' :: (['1', '9'] ++ ' ' :: (['4', '5'] ++ [' ', 'W'])))
      = "122 19 45 W"
  ∧ (createTransverseMercatorCylinder zoneSeconds).rotations
      = [⟨Axis.x, 90⟩, ⟨Axis.z, 90⟩, ⟨Axis.z, 79/4⟩] := by
  refine ⟨by decide, ?_⟩
  have h := createTM_cm_seconds "seconds zone" (some "TM") (some "TM") none none
      ['1', '2', '2'] ['1', '9'] ['4', '5'] 'W'
      (by decide) (by decide) (by decide) (by decide) (by decide) (by decide)
      (Or.inl rfl)
  rw [show String.mk (['1', '2', '2'] ++ ' ' :: (['1', '9'] ++ ' ' :: (['4', '5'] ++ [' ', 'W'])))
      = "122 19 45 W" from by decide] at h
  rw [show zoneSeconds =
      { name := "seconds zone", projection := some "TM",
        spcsParams := some
          { projectionType := some "TM",
            params := some
              { centralMeridian := some "122 19 45 W",
                latitudeOfOrigin := none,
                scaleFactor := none,
                scaleFactorDenominator := none } } } from rfl]
  rw [h]
  have e1 : jsParseIntDigits ['1', '9'] = 19 := by decide
  have e2 : jsParseIntDigits ['4', '5'] = 45 := by decide
  rw [e1, e2, if_pos (show 'W' = 'W' from rfl)]
  norm_num [RotStep.mk.injEq]

/-- Counterexample for C3 as stated: on the central meridian
122 19 45 W the aligner regex matches the trailing 19 45 W, so the Z
rotation is plus 19.75 degrees and not plus (122 + 19/60 + 45/3600)
degrees as the claim demands. -/
theorem createTM_cm_seconds_counterexample :
    matchDMH ['W', 'E'] "122 19 45 W".data = some (19, 45, 'W')
  ∧ (createTransverseMercatorCylinder zoneSeconds).rotations
      = [⟨Axis.x, 90⟩, ⟨Axis.z, 90⟩, ⟨Axis.z, 79/4⟩]
  ∧ ((79/4 : ℚ)) ≠ 122 + 19/60 + 45/3600 := by
  refine ⟨by decide, ?_, by norm_num⟩
  have h : matchDMH ['W', 'E'] "122 19 45 W".data = some (19, 45, 'W') := by decide
  simp only [createTransverseMercatorCylinder, zoneSeconds, h]
  norm_num [RotStep.mk.injEq]

/-! ## Claim C4: shortest-path wrap of the longitude delta -/

theorem normalizePiLoop1_le (x : ℚ) : normalizePiLoop1 x ≤ 1 := by
  induction x using normalizePiLoop1.induct with
  | case1 x h ih => rw [normalizePiLoop1, dif_pos h]; exact ih
  | case2 x h => rw [normalizePiLoop1, dif_neg h]; linarith

theorem normalizePiLoop1_turns (x : ℚ) : ∃ k : ℤ, normalizePiLoop1 x = x + 2 * k := by
  induction x using normalizePiLoop1.induct with
  | case1 x h ih =>
    obtain ⟨k, hk⟩ := ih
    exact ⟨k - 1, by rw [normalizePiLoop1, dif_pos h, hk]; push_cast; ring⟩
  | case2 x h => exact ⟨0, by rw [normalizePiLoop1, dif_neg h]; push_cast; ring⟩

theorem normalizePiLoop1_id (x : ℚ) (h : x ≤ 1) : normalizePiLoop1 x = x := by
  rw [normalizePiLoop1, dif_neg (not_lt.mpr h)]

theorem normalizePiLoop2_ge (x : ℚ) : -1 ≤ normalizePiLoop2 x := by
  induction x using normalizePiLoop2.induct with
  | case1 x h ih => rw [normalizePiLoop2, dif_pos h]; exact ih
  | case2 x h => rw [normalizePiLoop2, dif_neg h]; linarith

theorem normalizePiLoop2_le (x : ℚ) : x ≤ 1 → normalizePiLoop2 x ≤ 1 := by
  induction x using normalizePiLoop2.induct with
  | case1 x h ih =>
    intro _
    rw [normalizePiLoop2, dif_pos h]
    exact ih (by linarith)
  | case2 x h =>
    intro hle
    rw [normalizePiLoop2, dif_neg h]
    exact hle

theorem normalizePiLoop2_turns (x : ℚ) : ∃ k : ℤ, normalizePiLoop2 x = x + 2 * k := by
  induction x using normalizePiLoop2.induct with
  | case1 x h ih =>
    obtain ⟨k, hk⟩ := ih
    exact ⟨k + 1, by rw [normalizePiLoop2, dif_pos h, hk]; push_cast; ring⟩
  | case2 x h => exact ⟨0, by rw [normalizePiLoop2, dif_neg h]; push_cast; ring⟩

theorem normalizePiLoop2_id (x : ℚ) (h : -1 ≤ x) : normalizePiLoop2 x = x := by
  rw [normalizePiLoop2, dif_neg (not_lt.mpr h)]

theorem normalizeDeltaPi_mem (x : ℚ) :
    -1 ≤ normalizeDeltaPi x ∧ normalizeDeltaPi x ≤ 1 :=
  ⟨normalizePiLoop2_ge _, normalizePiLoop2_le _ (normalizePiLoop1_le x)⟩

theorem normalizeDeltaPi_turns (x : ℚ) : ∃ k : ℤ, normalizeDeltaPi x = x + 2 * k := by
  obtain ⟨k1, hk1⟩ := normalizePiLoop1_turns x
  obtain ⟨k2, hk2⟩ := normalizePiLoop2_turns (normalizePiLoop1 x)
  exact ⟨k1 + k2, by rw [normalizeDeltaPi, hk2, hk1]; push_cast; ring⟩

theorem normalizeDeltaPi_id (x : ℚ) (h1 : -1 ≤ x) (h2 : x ≤ 1) : normalizeDeltaPi x = x := by
  rw [normalizeDeltaPi, normalizePiLoop1_id x h2, normalizePiLoop2_id x h1]

theorem deltaThetaRun_wrapRun : deltaThetaRun wrapRun = 1/9 := by
  have h : targetThetaRun wrapRun - wrapRun.originalTheta = -17/9 := by
    norm_num [targetThetaRun, wrapRun]
  rw [deltaThetaRun, h, normalizeDeltaPi]
  rw [normalizePiLoop1, dif_neg (by norm_num)]
  rw [normalizePiLoop2, dif_pos (by norm_num)]
  rw [show (-17/9 + 2 : ℚ) = 1/9 by norm_num]
  rw [normalizePiLoop2, dif_neg (by norm_num)]

/-- Claim C4: for every orbit request the longitude delta starts from
the target theta minus the current theta and is shifted by full turns
until it lies between minus pi and pi (minus one and one in pi units);
in particular the run from theta 170 degrees to theta minus 170 degrees
receives the short 20 degree delta (1/9 of pi), never the long 340
degree arc. -/
theorem orbit_shortest_path :
    (∀ r : OrbitRun,
        (-1 ≤ deltaThetaRun r ∧ deltaThetaRun r ≤ 1)
      ∧ ∃ k : ℤ, deltaThetaRun r = (targetThetaRun r - r.originalTheta) + 2 * k)
  ∧ deltaThetaRun wrapRun = 1/9 :=
  ⟨fun _ => ⟨normalizeDeltaPi_mem _, normalizeDeltaPi_turns _⟩, deltaThetaRun_wrapRun⟩

/-! ## Claim C5: monotonicity and terminal exactness of the orbit run -/

theorem cube_le_cube {a b : ℚ} (h : a ≤ b) : a ^ 3 ≤ b ^ 3 := by
  nlinarith [sq_nonneg a, sq_nonneg b, sq_nonneg (a + b), sq_nonneg (a - b)]

theorem easedSample_mono (orig d start dur s t : ℚ)
    (hdur : 0 < dur) (_hs : start ≤ s) (hst : s ≤ t) :
    ((if start + dur ≤ s then orig + d
      else orig + d * easeOutCubic ((s - start) / dur))
      - (if start + dur ≤ t then orig + d
         else orig + d * easeOutCubic ((t - start) / dur))) * d ≤ 0 := by
  by_cases hT : start + dur ≤ t
  · by_cases hS : start + dur ≤ s
    · rw [if_pos hS, if_pos hT]
      nlinarith []
    · rw [if_neg hS, if_pos hT]
      have hps : (s - start) / dur ≤ 1 := by
        rw [div_le_one hdur]; linarith
      have h3 : 0 ≤ (1 - (s - start) / dur) ^ 3 := pow_nonneg (by linarith) 3
      simp only [easeOutCubic]
      nlinarith [sq_nonneg d, h3]
  · have hS : ¬ start + dur ≤ s := fun hS => hT (hS.trans hst)
    rw [if_neg hS, if_neg hT]
    have hpp : (s - start) / dur ≤ (t - start) / dur :=
      (div_le_div_iff_of_pos_right hdur).mpr (by linarith)
    have hcube : (1 - (t - start) / dur) ^ 3 ≤ (1 - (s - start) / dur) ^ 3 :=
      cube_le_cube (by linarith)
    simp only [easeOutCubic]
    nlinarith [sq_nonneg d, hcube]

/-- Claim C5 (amended): within one orbitToLatLong run the emitted
samples move monotonically toward the target and the terminal sample
(as soon as the elapsed time reaches the duration) equals the target
exactly.  Monotonicity of the whole theta sequence, terminal sample
included, holds whenever the target theta differs from the current
theta by at most pi; when the shortest path wraps across the 180 degree
meridian the terminal theta differs from the interpolated limit by a
full turn, so the raw sequence is not monotone there (the claim as
stated fails on such runs). -/
theorem orbitToLatLong_monotone_exact (r : OrbitRun) (s t : ℚ)
    (hdur : 0 < r.duration) (hs : r.startTime ≤ s) (hst : s ≤ t)
    (hlo : -1 ≤ targetThetaRun r - r.originalTheta)
    (hhi : targetThetaRun r - r.originalTheta ≤ 1) :
    ((thetaSample r s - thetaSample r t) * (targetThetaRun r - r.originalTheta) ≤ 0
      ∧ (phiSample r s - phiSample r t) * (targetPhiRun r - r.originalPhi) ≤ 0)
  ∧ (r.startTime + r.duration ≤ t →
      thetaSample r t = targetThetaRun r ∧ phiSample r t = targetPhiRun r) := by
  have hid : deltaThetaRun r = targetThetaRun r - r.originalTheta := by
    rw [deltaThetaRun]; exact normalizeDeltaPi_id _ hlo hhi
  have hθ : ∀ x : ℚ, thetaSample r x
      = (if r.startTime + r.duration ≤ x
         then r.originalTheta + (targetThetaRun r - r.originalTheta)
         else r.originalTheta + (targetThetaRun r - r.originalTheta)
            * easeOutCubic ((x - r.startTime) / r.duration)) := by
    intro x
    rw [thetaSample, hid]
    by_cases hx : r.startTime + r.duration ≤ x
    · rw [if_pos hx, if_pos hx]; ring
    · rw [if_neg hx, if_neg hx]
  have hφ : ∀ x : ℚ, phiSample r x
      = (if r.startTime + r.duration ≤ x
         then r.originalPhi + (targetPhiRun r - r.originalPhi)
         else r.originalPhi + (targetPhiRun r - r.originalPhi)
            * easeOutCubic ((x - r.startTime) / r.duration)) := by
    intro x
    rw [phiSample, deltaPhiRun]
    by_cases hx : r.startTime + r.duration ≤ x
    · rw [if_pos hx, if_pos hx]; ring
    · rw [if_neg hx, if_neg hx]
  refine ⟨⟨?_, ?_⟩, fun ht => ⟨?_, ?_⟩⟩
  · rw [hθ s, hθ t]
    exact easedSample_mono _ _ _ _ _ _ hdur hs hst
  · rw [hφ s, hφ t]
    exact easedSample_mono _ _ _ _ _ _ hdur hs hst
  · rw [thetaSample, if_pos ht]
  · rw [phiSample, if_pos ht]

/-- Witness for the amended C5 on the spec scenario run from longitude
0 to 90 degrees east over one time unit: the hypotheses hold, theta
moves toward the target between times 0 and 2, and the sample at time 2
is exactly the target. -/
theorem orbitToLatLong_monotone_exact_witness :
    ((0 : ℚ) < eastRun.duration ∧ eastRun.startTime ≤ (0 : ℚ) ∧ ((0 : ℚ) ≤ (2 : ℚ))
      ∧ -1 ≤ targetThetaRun eastRun - eastRun.originalTheta
      ∧ targetThetaRun eastRun - eastRun.originalTheta ≤ 1)
  ∧ (((thetaSample eastRun 0 - thetaSample eastRun 2)
        * (targetThetaRun eastRun - eastRun.originalTheta) ≤ 0
      ∧ (phiSample eastRun 0 - phiSample eastRun 2)
          * (targetPhiRun eastRun - eastRun.originalPhi) ≤ 0)
    ∧ (eastRun.startTime + eastRun.duration ≤ 2 →
        thetaSample eastRun 2 = targetThetaRun eastRun
        ∧ phiSample eastRun 2 = targetPhiRun eastRun)) := by
  refine ⟨⟨?_, ?_, ?_, ?_, ?_⟩, ?_⟩
  · norm_num [eastRun]
  · norm_num [eastRun]
  · norm_num
  · norm_num [targetThetaRun, eastRun]
  · norm_num [targetThetaRun, eastRun]
  · exact orbitToLatLong_monotone_exact eastRun 0 2
      (by norm_num [eastRun]) (by norm_num [eastRun]) (by norm_num)
      (by norm_num [targetThetaRun, eastRun]) (by norm_num [targetThetaRun, eastRun])

/-- Counterexample for C5 as stated: on the wrap-crossing run from
theta 170 degrees to longitude minus 170 degrees the emitted theta
samples rise from 17/18 of pi to 75/72 of pi and then the terminal
sample drops to minus 17/18 of pi; the sequence is monotone in neither
direction although the terminal sample is exact. -/
theorem orbit_wrap_not_monotone :
    thetaSample wrapRun 0 < thetaSample wrapRun (1/2)
  ∧ thetaSample wrapRun 1 < thetaSample wrapRun 0
  ∧ thetaSample wrapRun 1 = targetThetaRun wrapRun := by
  have h0 : thetaSample wrapRun 0 = 17/18 := by
    rw [thetaSample, if_neg (by norm_num [wrapRun]), deltaThetaRun_wrapRun]
    norm_num [wrapRun, easeOutCubic]
  have hhalf : thetaSample wrapRun (1/2) = 75/72 := by
    rw [thetaSample, if_neg (by norm_num [wrapRun]), deltaThetaRun_wrapRun]
    norm_num [wrapRun, easeOutCubic]
  have h1 : thetaSample wrapRun 1 = targetThetaRun wrapRun := by
    rw [thetaSample, if_pos (by norm_num [wrapRun])]
  refine ⟨?_, ?_, h1⟩
  · rw [h0, hhalf]; norm_num
  · rw [h0, h1]; norm_num [targetThetaRun, wrapRun]

/-! ## Claim C6: formatDDMMSS on DMS inputs -/

theorem hem_chars_not_digit :
    ∀ a ∈ (['N', 'S', 'E', 'W', 'n', 's', 'e', 'w'] : List Char), a.isDigit = false := by
  intro a ha
  fin_cases ha <;> decide

theorem hem_mem_of_contains {h : Char}
    (hh : (['N', 'S', 'E', 'W', 'n', 's', 'e', 'w'] : List Char).contains h = true) :
    h ∈ (['N', 'S', 'E', 'W', 'n', 's', 'e', 'w'] : List Char) := by
  obtain ⟨a, ha, hba⟩ := List.contains_iff_exists_mem_beq.mp hh
  rcases eq_of_beq hba with rfl
  exact ha

theorem hem_not_digit {h : Char}
    (hh : (['N', 'S', 'E', 'W', 'n', 's', 'e', 'w'] : List Char).contains h = true) :
    h.isDigit = false := by
  have := hem_mem_of_contains hh
  fin_cases this <;> decide

theorem hem_not_space {h : Char}
    (hh : (['N', 'S', 'E', 'W', 'n', 's', 'e', 'w'] : List Char).contains h = true) :
    isSpaceChar h = false := by
  have := hem_mem_of_contains hh
  fin_cases this <;> decide

theorem matchDMSAt_nosec (ds ms : List Char) (h : Char)
    (hds : ds ≠ []) (hdall : ∀ a ∈ ds, a.isDigit = true)
    (hms : ms ≠ []) (hmall : ∀ a ∈ ms, a.isDigit = true)
    (hh : (['N', 'S', 'E', 'W', 'n', 's', 'e', 'w'] : List Char).contains h = true) :
    matchDMSAt (ds ++ ' ' :: (ms ++ [' ', h])) = some (ds, ms, none, h) := by
  obtain ⟨m0, ms', rfl⟩ := List.exists_cons_of_ne_nil hms
  have hm0 : m0.isDigit = true := hmall m0 (by simp)
  have e1 : digits1 (ds ++ ' ' :: (m0 :: (ms' ++ [' ', h])))
      = some (ds, ' ' :: (m0 :: (ms' ++ [' ', h]))) :=
    digits1_append_stop ds ' ' _ hds hdall (by decide)
  have e2 : spaces1 (' ' :: m0 :: (ms' ++ [' ', h])) = some (m0 :: (ms' ++ [' ', h])) :=
    spaces1_single_space m0 _ (not_space_of_digit hm0)
  have e3 : digits1 (m0 :: (ms' ++ [' ', h])) = some (m0 :: ms', [' ', h]) := by
    have := digits1_append_stop (m0 :: ms') ' ' [h] (by simp) hmall (by decide)
    simpa using this
  have e4 : spaces1 [' ', h] = some [h] := spaces1_single_space h [] (hem_not_space hh)
  have e5 : digits1 [h] = none := digits1_not_digit h [] (hem_not_digit hh)
  have e6 : ([' ', h].dropWhile isSpaceChar) = [h] :=
    dropWhile_single_space h [] (hem_not_space hh)
  simp only [matchDMSAt, List.cons_append, e1, e2, e3, e4, e5, e6, hemAt, hh, if_true]

theorem matchDMSAt_sec (ds ms ss : List Char) (h : Char)
    (hds : ds ≠ []) (hdall : ∀ a ∈ ds, a.isDigit = true)
    (hms : ms ≠ []) (hmall : ∀ a ∈ ms, a.isDigit = true)
    (hss : ss ≠ []) (hsall : ∀ a ∈ ss, a.isDigit = true)
    (hh : (['N', 'S', 'E', 'W', 'n', 's', 'e', 'w'] : List Char).contains h = true) :
    matchDMSAt (ds ++ ' ' :: (ms ++ ' ' :: (ss ++ [' ', h]))) = some (ds, ms, some ss, h) := by
  obtain ⟨m0, ms', rfl⟩ := List.exists_cons_of_ne_nil hms
  obtain ⟨s0, ss', rfl⟩ := List.exists_cons_of_ne_nil hss
  have hm0 : m0.isDigit = true := hmall m0 (by simp)
  have hs0 : s0.isDigit = true := hsall s0 (by simp)
  have e1 : digits1 (ds ++ ' ' :: (m0 :: (ms' ++ ' ' :: (s0 :: (ss' ++ [' ', h])))))
      = some (ds, ' ' :: (m0 :: (ms' ++ ' ' :: (s0 :: (ss' ++ [' ', h]))))) :=
    digits1_append_stop ds ' ' _ hds hdall (by decide)
  have e2 : spaces1 (' ' :: m0 :: (ms' ++ ' ' :: (s0 :: (ss' ++ [' ', h]))))
      = some (m0 :: (ms' ++ ' ' :: (s0 :: (ss' ++ [' ', h])))) :=
    spaces1_single_space m0 _ (not_space_of_digit hm0)
  have e3 : digits1 (m0 :: (ms' ++ ' ' :: (s0 :: (ss' ++ [' ', h]))))
      = some (m0 :: ms', ' ' :: (s0 :: (ss' ++ [' ', h]))) := by
    have := digits1_append_stop (m0 :: ms') ' ' (s0 :: (ss' ++ [' ', h]))
      (by simp) hmall (by decide)
    simpa using this
  have e4 : spaces1 (' ' :: s0 :: (ss' ++ [' ', h])) = some (s0 :: (ss' ++ [' ', h])) :=
    spaces1_single_space s0 _ (not_space_of_digit hs0)
  have e5 : digits1 (s0 :: (ss' ++ [' ', h])) = some (s0 :: ss', [' ', h]) := by
    have := digits1_append_stop (s0 :: ss') ' ' [h] (by simp) hsall (by decide)
    simpa using this
  have e6 : ([' ', h].dropWhile isSpaceChar) = [h] :=
    dropWhile_single_space h [] (hem_not_space hh)
  simp only [matchDMSAt, List.cons_append, e1, e2, e3, e4, e5, e6, hemAt, hh, if_true]

theorem matchDMS_nosec (ds ms : List Char) (h : Char)
    (hds : ds ≠ []) (hdall : ∀ a ∈ ds, a.isDigit = true)
    (hms : ms ≠ []) (hmall : ∀ a ∈ ms, a.isDigit = true)
    (hh : (['N', 'S', 'E', 'W', 'n', 's', 'e', 'w'] : List Char).contains h = true) :
    matchDMS (ds ++ ' ' :: (ms ++ [' ', h])) = some (ds, ms, none, h) := by
  obtain ⟨d0, ds', rfl⟩ := List.exists_cons_of_ne_nil hds
  have hat := matchDMSAt_nosec (d0 :: ds') ms h (by simp) hdall hms hmall hh
  rw [show (d0 :: ds') ++ ' ' :: (ms ++ [' ', h])
      = d0 :: (ds' ++ ' ' :: (ms ++ [' ', h])) by simp] at hat ⊢
  rw [matchDMS, hat]

theorem matchDMS_sec (ds ms ss : List Char) (h : Char)
    (hds : ds ≠ []) (hdall : ∀ a ∈ ds, a.isDigit = true)
    (hms : ms ≠ []) (hmall : ∀ a ∈ ms, a.isDigit = true)
    (hss : ss ≠ []) (hsall : ∀ a ∈ ss, a.isDigit = true)
    (hh : (['N', 'S', 'E', 'W', 'n', 's', 'e', 'w'] : List Char).contains h = true) :
    matchDMS (ds ++ ' ' :: (ms ++ ' ' :: (ss ++ [' ', h]))) = some (ds, ms, some ss, h) := by
  obtain ⟨d0, ds', rfl⟩ := List.exists_cons_of_ne_nil hds
  have hat := matchDMSAt_sec (d0 :: ds') ms ss h (by simp) hdall hms hmall hss hsall hh
  rw [show (d0 :: ds') ++ ' ' :: (ms ++ ' ' :: (ss ++ [' ', h]))
      = d0 :: (ds' ++ ' ' :: (ms ++ ' ' :: (ss ++ [' ', h]))) by simp] at hat ⊢
  rw [matchDMS, hat]

theorem mk_ne_empty {l : List Char} (hl : l ≠ []) : String.mk l ≠ "" := by
  intro h
  exact hl (by simpa [String.ext_iff] using h)

/-- Claim C6 (amended): on an input of the shape degrees, minutes and
hemisphere, formatDDMMSS renders the degree and minute fields with
their symbols and the hemisphere letter uppercased; when a seconds
field is present it is rendered with its symbol unless the capture is
exactly the two-character string 00, in which case it is omitted (a
zero seconds field written differently, such as a single 0, is
rendered, which is where the claim as stated fails). -/
theorem formatDDMMSS_dms_format (ds ms ss : List Char) (h : Char)
    (hds : ds ≠ []) (hdall : ∀ a ∈ ds, a.isDigit = true)
    (hms : ms ≠ []) (hmall : ∀ a ∈ ms, a.isDigit = true)
    (hss : ss ≠ []) (hsall : ∀ a ∈ ss, a.isDigit = true)
    (hh : (['N', 'S', 'E', 'W', 'n', 's', 'e', 'w'] : List Char).contains h = true) :
    formatDDMMSS (.jsStr (String.mk (ds ++ ' ' :: (ms ++ [' ', h]))))
      = String.mk ds ++ "° " ++ String.mk ms ++ "′" ++ " " ++ String.mk [h.toUpper]
  ∧ formatDDMMSS (.jsStr (String.mk (ds ++ ' ' :: (ms ++ ' ' :: (ss ++ [' ', h])))))
      = (if ss = ['0', '0']
         then String.mk ds ++ "° " ++ String.mk ms ++ "′" ++ " " ++ String.mk [h.toUpper]
         else String.mk ds ++ "° " ++ String.mk ms ++ "′" ++ " " ++ String.mk ss ++ "″"
              ++ " " ++ String.mk [h.toUpper]) := by
  constructor
  · have hne : String.mk (ds ++ ' ' :: (ms ++ [' ', h])) ≠ "" := mk_ne_empty (by simp [hds])
    have hm := matchDMS_nosec ds ms h hds hdall hms hmall hh
    simp only [formatDDMMSS, if_neg hne, hm]
    simp
  · have hne : String.mk (ds ++ ' ' :: (ms ++ ' ' :: (ss ++ [' ', h]))) ≠ "" :=
      mk_ne_empty (by simp [hds])
    have hm := matchDMS_sec ds ms ss h hds hdall hms hmall hss hsall hh
    simp only [formatDDMMSS, if_neg hne, hm]
    by_cases h00 : ss = ['0', '0']
    · simp [h00]
    · simp [h00]

/-- Witness for the amended C6 at the two spec examples: 85 50 W
renders without a seconds field and 122 19 45 W renders with one. -/
theorem formatDDMMSS_dms_format_witness :
    formatDDMMSS (.jsStr "85 50 W") = "85° 50′ W"
  ∧ formatDDMMSS (.jsStr "122 19 45 W") = "122° 19′ 45″ W" := by
  constructor
  · have h := (formatDDMMSS_dms_format ['8', '5'] ['5', '0'] ['4', '5'] 'W'
        (by decide) (by decide) (by decide) (by decide) (by decide) (by decide)
        (by decide)).1
    rw [show String.mk (['8', '5'] ++ ' ' :: (['5', '0'] ++ [' ', 'W'])) = "85 50 W"
        from by decide] at h
    rw [h]
    decide
  · have h := (formatDDMMSS_dms_format ['1', '2', '2'] ['1', '9'] ['4', '5'] 'W'
        (by decide) (by decide) (by decide) (by decide) (by decide) (by decide)
        (by decide)).2
    rw [show String.mk (['1', '2', '2'] ++ ' ' :: (['1', '9'] ++ ' ' :: (['4', '5'] ++ [' ', 'W'])))
        = "122 19 45 W" from by decide] at h
    rw [h, if_neg (by decide)]
    decide

/-- Counterexample for C6 as stated: the input 85 50 0 W has zero
seconds, yet the seconds field is rendered because the capture is the
single character 0 and not the string 00. -/
theorem formatDDMMSS_zero_seconds_counterexample :
    formatDDMMSS (.jsStr "85 50 0 W") = "85° 50′ 0″ W"
  ∧ "85° 50′ 0″ W" ≠ "85° 50′ W" := by
  exact ⟨by decide, by decide⟩

/-! ## Claim C7: fallback behaviour of formatDDMMSS -/

theorem digitChar_isDigit (n : ℕ) : (digitChar n).isDigit = true := by
  have h : n % 10 < 10 := Nat.mod_lt _ (by norm_num)
  unfold digitChar
  set k := n % 10 with hk
  clear_value k
  interval_cases k <;> decide

theorem natStrAux_digits :
    ∀ (fuel n : ℕ), ∀ c ∈ natStrAux fuel n, c.isDigit = true := by
  intro fuel
  induction fuel with
  | zero => intro n c hc; simp [natStrAux] at hc
  | succ fuel ih =>
    intro n c hc
    rw [natStrAux] at hc
    by_cases h : n < 10
    · rw [if_pos h] at hc
      simp at hc
      rw [hc]
      exact digitChar_isDigit n
    · rw [if_neg h] at hc
      rcases List.mem_append.mp hc with h1 | h2
      · exact ih (n / 10) c h1
      · simp at h2
        rw [h2]
        exact digitChar_isDigit (n % 10)

theorem natStr_data_digits (n : ℕ) : ∀ c ∈ (natStr n).data, c.isDigit = true :=
  natStrAux_digits (n + 1) n

theorem natStrAux_ne_nil (fuel n : ℕ) : natStrAux (fuel + 1) n ≠ [] := by
  rw [natStrAux]
  by_cases h : n < 10
  · rw [if_pos h]; simp
  · rw [if_neg h]; simp

theorem natStr_data_ne_nil (n : ℕ) : (natStr n).data ≠ [] := natStrAux_ne_nil n n

theorem decimal4_shape (sgn : String) (hsgn : sgn = "-" ∨ sgn = "")
    (ip : ℕ) (c1 c2 c3 c4 : Char)
    (h1 : c1.isDigit = true) (h2 : c2.isDigit = true)
    (h3 : c3.isDigit = true) (h4 : c4.isDigit = true) :
    decimal4 (sgn ++ natStr ip ++ "." ++ String.mk [c1, c2, c3, c4] ++ "°") = true := by
  have hdata : (sgn ++ natStr ip ++ "." ++ String.mk [c1, c2, c3, c4] ++ "°").data
      = sgn.data ++ ((natStr ip).data ++ '.' :: (c1 :: c2 :: c3 :: c4 :: ['°'])) := by
    simp [String.data_append]
  obtain ⟨d0, rest, hrest⟩ := List.exists_cons_of_ne_nil (natStr_data_ne_nil ip)
  have hd0 : d0.isDigit = true := natStr_data_digits ip d0 (by rw [hrest]; simp)
  have hstrip : (if (sgn.data ++ ((natStr ip).data ++ '.' :: (c1 :: c2 :: c3 :: c4 :: ['°']))).head?
        = some '-'
      then (sgn.data ++ ((natStr ip).data ++ '.' :: (c1 :: c2 :: c3 :: c4 :: ['°']))).tail
      else sgn.data ++ ((natStr ip).data ++ '.' :: (c1 :: c2 :: c3 :: c4 :: ['°'])))
      = (natStr ip).data ++ '.' :: (c1 :: c2 :: c3 :: c4 :: ['°']) := by
    rcases hsgn with rfl | rfl
    · simp
    · rw [show ("" : String).data = [] from rfl, List.nil_append, hrest]
      have hcond : ¬ (((d0 :: rest) ++ '.' :: (c1 :: c2 :: c3 :: c4 :: ['°'])).head?
          = some '-') := by
        simp only [List.cons_append, List.head?_cons, Option.some.injEq]
        intro hcon
        rw [hcon] at hd0
        exact absurd hd0 (by decide)
      rw [if_neg hcond]
  have htake := takeWhile_append_stop Char.isDigit (natStr ip).data '.'
      (c1 :: c2 :: c3 :: c4 :: ['°']) (natStr_data_digits ip) (by decide)
  rw [decimal4]
  rw [hdata]
  rw [hstrip]
  rw [htake.1, htake.2]
  have hne : ((natStr ip).data.isEmpty) = false := by
    rw [List.isEmpty_eq_false_iff_exists_mem]
    exact ⟨d0, by rw [hrest]; simp⟩
  simp [hne, h1, h2, h3, h4]

theorem jsToFixed4_decimal4 (q : ℚ) : decimal4 (jsToFixed4 (some q) ++ "°") = true := by
  rw [jsToFixed4]
  by_cases hq : q < 0
  · rw [if_pos hq]
    exact decimal4_shape "-" (Or.inl rfl) _ _ _ _ _
      (digitChar_isDigit _) (digitChar_isDigit _) (digitChar_isDigit _) (digitChar_isDigit _)
  · rw [if_neg hq]
    exact decimal4_shape "" (Or.inr rfl) _ _ _ _ _
      (digitChar_isDigit _) (digitChar_isDigit _) (digitChar_isDigit _) (digitChar_isDigit _)

/-- Claim C7 (amended): null, undefined and non-string inputs of
formatDDMMSS yield the sentinel, and so does the empty string (it is
falsy); a nonempty string that does not match the DMS pattern is passed
through parseFloat and toFixed with a degree sign when it contains a
decimal point, which produces a sign, digits, a point and exactly four
fraction digits whenever parseFloat yields a number and the string NaN
followed by the degree sign otherwise; any other nonmatching string is
returned unchanged.  No input is propagated as a failure. -/
theorem formatDDMMSS_fallbacks :
    (∀ v : JSInput, (∀ s, v ≠ .jsStr s) → formatDDMMSS v = "Not specified")
  ∧ formatDDMMSS (.jsStr "") = "Not specified"
  ∧ (∀ s : String, s ≠ "" → matchDMS s.data = none →
      formatDDMMSS (.jsStr s)
        = (if s.data.contains '.' then jsToFixed4 (jsParseFloat s) ++ "°" else s))
  ∧ (∀ q : ℚ, decimal4 (jsToFixed4 (some q) ++ "°") = true)
  ∧ jsToFixed4 none ++ "°" = "NaN°" := by
  refine ⟨?_, by decide, ?_, jsToFixed4_decimal4, by decide⟩
  · intro v hv
    cases v with
    | jsStr s => exact absurd rfl (hv s)
    | jsNull => rfl
    | jsUndefined => rfl
    | jsNum q => rfl
    | jsObject => rfl
  · intro s hs hm
    simp only [formatDDMMSS, if_neg hs, hm]

/-- Witness for the amended C7: the number 12345 is not a string and
yields the sentinel, and the nonmatching decimal string 85.8333 is
rendered through parseFloat and toFixed. -/
theorem formatDDMMSS_fallbacks_witness :
    formatDDMMSS (.jsNum 12345) = "Not specified"
  ∧ ("85.8333" : String) ≠ ""
  ∧ matchDMS ("85.8333" : String).data = none
  ∧ formatDDMMSS (.jsStr "85.8333")
      = (if ("85.8333" : String).data.contains '.'
         then jsToFixed4 (jsParseFloat "85.8333") ++ "°"
         else "85.8333")
  ∧ formatDDMMSS (.jsStr "85.8333") = "85.8333°" := by
  refine ⟨formatDDMMSS_fallbacks.1 (.jsNum 12345) (fun s h => by cases h),
    by decide, by decide,
    formatDDMMSS_fallbacks.2.2.1 "85.8333" (by decide) (by decide), ?_⟩
  rw [formatDDMMSS_fallbacks.2.2.1 "85.8333" (by decide) (by decide)]
  rw [if_pos (by decide)]
  have hp : jsParseFloat "85.8333" = some (858333/10000) := by
    have h : jsParseFloatParts "85.8333" = some (false, ['8', '5'], ['8', '3', '3', '3'], 0) := by
      decide
    have h2 : jsParseIntDigits ['8', '5'] = 85 := by decide
    have h3 : jsParseIntDigits ['8', '3', '3', '3'] = 8333 := by decide
    rw [jsParseFloat, h]
    simp only [Option.map, h2, h3]
    norm_num
  rw [hp, jsToFixed4]
  have h1 : ¬((858333/10000 : ℚ) < 0) := by norm_num
  have h2 : |(858333/10000 : ℚ)| = 858333/10000 := abs_of_nonneg (by norm_num)
  rw [h2]
  have h3 : (⌊(858333/10000 : ℚ) * 10000 + 1/2⌋) = 858333 := by norm_num
  rw [h3, if_neg h1]
  decide

/-- Counterexample for C7 as stated: the string x.y does not match the
DMS pattern and contains a decimal point, but the result is the string
NaN with a degree sign, which is not a decimal with four fraction
digits, and the original string is not returned either. -/
theorem formatDDMMSS_nan_counterexample :
    formatDDMMSS (.jsStr "x.y") = "NaN°"
  ∧ decimal4 "NaN°" = false
  ∧ formatDDMMSS (.jsStr "x.y") ≠ "x.y" := by
  exact ⟨by decide, by decide, by decide⟩

/-! ## Claim C8: normalized zone parameter lookup -/

/-- Claim C8: getSPCSZoneParameters zero-pads the regional code to four
characters before lookup, so the string 101, the number 101 and the
string 0101 resolve to identical results on every database and datum;
a datum absent from the database resolves to null, and a code absent
from a known datum resolves to null, never an error. -/
theorem getSPCSZoneParameters_normalized :
    (∀ (db : SPCSDb) (datum : String),
        getSPCSZoneParameters db (.str "101") datum
          = getSPCSZoneParameters db (.num 101) datum
      ∧ getSPCSZoneParameters db (.str "0101") datum
          = getSPCSZoneParameters db (.num 101) datum)
  ∧ (∀ (db : SPCSDb) (datum : String) (code : FipsCode),
      List.lookup datum db = none → getSPCSZoneParameters db code datum = none)
  ∧ (∀ (db : SPCSDb) (datum : String) (code : FipsCode) (dr : DatumRec)
        (zs : List (String × SPCSZoneRec)),
      List.lookup datum db = some dr → dr.zones = some zs →
      List.lookup (padStart4 (fipsToString code)) zs = none →
      getSPCSZoneParameters db code datum = none) := by
  refine ⟨?_, ?_, ?_⟩
  · intro db datum
    have e1 : fipsFalsy (.str "101") = false := by decide
    have e2 : fipsFalsy (.num 101) = false := by decide
    have e3 : fipsFalsy (.str "0101") = false := by decide
    have p1 : padStart4 (fipsToString (.str "101")) = "0101" := by decide
    have p2 : padStart4 (fipsToString (.num 101)) = "0101" := by decide
    have p3 : padStart4 (fipsToString (.str "0101")) = "0101" := by decide
    constructor
    · simp only [getSPCSZoneParameters, e1, e2, p1, p2]
    · simp only [getSPCSZoneParameters, e3, e2, p3, p2]
  · intro db datum code h
    rw [getSPCSZoneParameters]
    by_cases hf : fipsFalsy code
    · rw [if_pos (by simp [hf])]
    · rw [if_neg (by simp [hf]), h]
  · intro db datum code dr zs h1 h2 h3
    by_cases hf : fipsFalsy code
    · rw [getSPCSZoneParameters, if_pos (by simp [hf])]
    · simp only [getSPCSZoneParameters, h1, h2, h3]
      rw [if_neg (by simp [hf])]

/-- Witness for C8 on the sample database: the three spellings of code
101 resolve identically (and successfully), the unknown datum NAD27
resolves to null, and the unknown code 9999 resolves to null. -/
theorem getSPCSZoneParameters_normalized_witness :
    (getSPCSZoneParameters sampleDb (.str "101") "NAD83"
      = getSPCSZoneParameters sampleDb (.num 101) "NAD83"
    ∧ getSPCSZoneParameters sampleDb (.str "0101") "NAD83"
      = getSPCSZoneParameters sampleDb (.num 101) "NAD83")
  ∧ (getSPCSZoneParameters sampleDb (.num 101) "NAD83").isSome = true
  ∧ List.lookup "NAD27" sampleDb = none
  ∧ getSPCSZoneParameters sampleDb (.str "0101") "NAD27" = none
  ∧ getSPCSZoneParameters sampleDb (.str "9999") "NAD83" = none := by
  refine ⟨getSPCSZoneParameters_normalized.1 sampleDb "NAD83", by decide, by decide, ?_, ?_⟩
  · exact getSPCSZoneParameters_normalized.2.1 sampleDb "NAD27" (.str "0101") (by decide)
  · exact getSPCSZoneParameters_normalized.2.2 sampleDb "NAD83" (.str "9999")
      { zones := some [("0101",
          { name := "Alabama East", fips := "0101", projectionType := "TM",
            params :=
              { centralMeridian := some "85 50 W",
                latitudeOfOrigin := some "30 30 N",
                scaleFactor := none,
                scaleFactorDenominator := some (.num 25000) } })] }
      [("0101",
        { name := "Alabama East", fips := "0101", projectionType := "TM",
          params :=
            { centralMeridian := some "85 50 W",
              latitudeOfOrigin := some "30 30 N",
              scaleFactor := none,
              scaleFactorDenominator := some (.num 25000) } })]
      rfl rfl (by decide)

/-! ## Claim C9: explicit unsupported-projection signal -/

/-- Claim C9: visualizeProjection returns null to its caller exactly
when the resolved projection type has no implemented strategy (only the
Transverse Mercator case is implemented; the Lambert Conformal Conic
and Oblique Mercator branches are stubs and the default branch only
warns), so the unsupported outcome is an explicit signal
distinguishable from every successful visualization. -/
theorem visualizeProjection_unsupported (zone : Zone) :
    visualizeProjection zone = none ↔ getProjectionType zone ≠ "Transverse Mercator" := by
  rw [visualizeProjection]
  by_cases h : getProjectionType zone = "Transverse Mercator"
  · simp [h]
  · simp [h]

/-! ## Claim C10: sphere identity of latLonToPoint -/

/-- Claim C10: for every latitude in the closed range minus 90 to 90,
longitude in the half-open range minus 180 to 180 and radius, the point
returned by latLonToPoint has the components radius cos lat sin lon,
radius sin lat, radius cos lat cos lon (angles in radians) and
satisfies the sphere identity within relative tolerance one millionth
(the identity is in fact exact over the reals). -/
theorem latLonToPoint_sphere (lat lon radius : ℝ)
    (_hlat : -90 ≤ lat ∧ lat ≤ 90) (_hlon : -180 < lon ∧ lon ≤ 180) :
    ((latLonToPoint lat lon radius).x
        = radius * Real.cos (lat * Real.pi / 180) * Real.sin (lon * Real.pi / 180)
      ∧ (latLonToPoint lat lon radius).y = radius * Real.sin (lat * Real.pi / 180)
      ∧ (latLonToPoint lat lon radius).z
        = radius * Real.cos (lat * Real.pi / 180) * Real.cos (lon * Real.pi / 180))
  ∧ |(latLonToPoint lat lon radius).x ^ 2 + (latLonToPoint lat lon radius).y ^ 2
      + (latLonToPoint lat lon radius).z ^ 2 - radius ^ 2|
      ≤ 1 / 1000000 * radius ^ 2 := by
  refine ⟨⟨rfl, rfl, rfl⟩, ?_⟩
  have h1 := Real.sin_sq_add_cos_sq (lon * Real.pi / 180)
  have h2 := Real.sin_sq_add_cos_sq (lat * Real.pi / 180)
  have hid : (latLonToPoint lat lon radius).x ^ 2 + (latLonToPoint lat lon radius).y ^ 2
      + (latLonToPoint lat lon radius).z ^ 2 - radius ^ 2 = 0 := by
    simp only [latLonToPoint]
    linear_combination (radius ^ 2 * Real.cos (lat * Real.pi / 180) ^ 2) * h1
      + radius ^ 2 * h2
  rw [hid, abs_zero]
  positivity

/-- Witness for C10 at latitude 0, longitude 0 and radius 1. -/
theorem latLonToPoint_sphere_witness :
    (((-90 : ℝ) ≤ 0 ∧ (0 : ℝ) ≤ 90) ∧ ((-180 : ℝ) < 0 ∧ (0 : ℝ) ≤ 180))
  ∧ |(latLonToPoint 0 0 1).x ^ 2 + (latLonToPoint 0 0 1).y ^ 2
      + (latLonToPoint 0 0 1).z ^ 2 - (1 : ℝ) ^ 2| ≤ 1 / 1000000 * (1 : ℝ) ^ 2 := by
  refine ⟨⟨⟨by norm_num, by norm_num⟩, ⟨by norm_num, by norm_num⟩⟩, ?_⟩
  exact (latLonToPoint_sphere 0 0 1 ⟨by norm_num, by norm_num⟩ ⟨by norm_num, by norm_num⟩).2
